import Mathlib

/-!
Shallow embedding of `src/diffusionLM/utils/datasetANDtokenizer.py`
(repository PIP-DifffusionLM), centred on `prepare_dataset`.

Python values appearing in dataset records are modelled by `Value`;
Hugging Face dataset splits by `Split` (column names plus a list of
records, each record an association list from column name to value);
a `DatasetDict` by a list of named splits.  A tokenizer is modelled by
its special-token state plus an `encode` oracle standing for the
fallible external call `tokenizer(...)`.

Python exceptions are modelled by `PyError`: the repository's own
`DatasetPreparationError`, and `otherError` for every other exception,
each carrying the text that Python's `str(e)` would produce
(`str(KeyError(k))` is the key in single quotes; `str` of a
single-argument exception is its message).  Fallible code returns
`Except PyError _`; external calls whose outcome is an input of the
run (`AutoTokenizer.from_pretrained`, `load_dataset`) are passed in as
`Except String _` arguments carrying the failure text on error.
-/

/-- A Python value stored in a dataset record, as far as
`isinstance(-, str)` can observe it. -/
inductive Value where
  | str (s : String)
  | int (n : Int)
  | other
deriving DecidableEq, Repr

/-- Python's `isinstance(v, str)`. -/
def Value.isStr : Value → Bool
  | .str _ => true
  | _ => false

/-- A dataset record: association list from column name to value. -/
abbrev Row : Type := List (String × Value)

/-- A Hugging Face dataset split: its `column_names` and its records. -/
structure Split where
  column_names : List String
  rows : List Row
deriving DecidableEq, Repr

/-- A Hugging Face `DatasetDict`: named splits in declared order. -/
structure DatasetDict where
  splits : List (String × Split)
deriving DecidableEq, Repr

/-- A Python exception as `prepare_dataset` can observe it:
the repository's `DatasetPreparationError`, or any other exception;
each constructor carries the text `str(e)` would produce. -/
inductive PyError where
  | datasetPreparationError (msg : String)
  | otherError (msg : String)
deriving DecidableEq, Repr

/-- Python's `str(e)` on a modelled exception. -/
def pyStr : PyError → String
  | .datasetPreparationError m => m
  | .otherError m => m

/-- Python's `row[k]` on a record: the stored value, or a `KeyError` whose
`str` is the key in single quotes. -/
def rowGet (r : Row) (k : String) : Except PyError Value :=
  match List.find? (fun kv => kv.1 == k) r with
  | some kv => .ok kv.2
  | none => .error (.otherError ("'" ++ k ++ "'"))

/-- Lookup of `dataset[name]` as a plain option (`some` iff the split exists). -/
def lookupSplit (l : List (String × Split)) (n : String) : Option Split :=
  match List.find? (fun p => p.1 == n) l with
  | some p => some p.2
  | none => none

/-- Indexing `dataset[name]` with Python's `KeyError` on a missing split. -/
def getSplit (d : DatasetDict) (n : String) : Except PyError Split :=
  match lookupSplit d.splits n with
  | some s => .ok s
  | none => .error (.otherError ("'" ++ n ++ "'"))

/-- Indexing `split[i]` with Python's `IndexError` past the end. -/
def getRow (s : Split) (i : Nat) : Except PyError Row :=
  match s.rows.get? i with
  | some r => .ok r
  | none => .error (.otherError "list index out of range")

/-- Python's `f"{columns}"` on a list of strings:
`repr` of the list, items in single quotes. -/
def pyReprStrList (l : List String) : String :=
  "[" ++ String.intercalate ", " (l.map (fun s => "'" ++ s ++ "'")) ++ "]"

/-- The tokenizer state `prepare_dataset` observes and updates, plus an
`encode` oracle for the external call `tokenizer(texts, ...)`: on
success it yields the output fields of the returned encoding (e.g.
`input_ids`, `attention_mask`), on failure the exception text. -/
structure Tokenizer where
  mask_token : Option String
  pad_token : Option String
  mask_token_id : Option Nat
  pad_token_id : Option Nat
  vocab_size : Nat
  encode : Value → Except String Row

/-- Model of `tokenizer.add_special_tokens({'mask_token': '[MASK]'})`: registers
the placeholder, extending the vocabulary with a fresh id. -/
def add_mask_token (t : Tokenizer) : Tokenizer :=
  { t with
    mask_token := some "[MASK]"
    mask_token_id := some t.vocab_size
    vocab_size := t.vocab_size + 1 }

/-- Model of `tokenizer.add_special_tokens({'pad_token': '[PAD]'})`: registers
the placeholder, extending the vocabulary with a fresh id. -/
def add_pad_token (t : Tokenizer) : Tokenizer :=
  { t with
    pad_token := some "[PAD]"
    pad_token_id := some t.vocab_size
    vocab_size := t.vocab_size + 1 }

/-- Lines 49-55 of the source: add `[MASK]` when `tokenizer.mask_token
is None`, then add `[PAD]` when `tokenizer.pad_token is None`. -/
def ensure_special_tokens (t : Tokenizer) : Tokenizer :=
  let t1 := if t.mask_token.isNone then add_mask_token t else t
  if t1.pad_token.isNone then add_pad_token t1 else t1

/-- The inner `tokenize_function`: look up the text column in the
record, call the tokenizer, and map any exception to
`DatasetPreparationError("Tokenization failed: " + str(e))`. -/
def tokenize_function (tok : Tokenizer) (text_column : String)
    (examples : Row) : Except PyError Row :=
  match rowGet examples text_column with
  | .error e => .error (.datasetPreparationError ("Tokenization failed: " ++ pyStr e))
  | .ok v =>
    match tok.encode v with
    | .error m => .error (.datasetPreparationError ("Tokenization failed: " ++ m))
    | .ok out => .ok out

/-- The fixed candidate list of line 67 of the source. -/
def possible_columns : List String :=
  ["text", "content", "input_text", "sentence", "document"]

/-- The fallback loop of lines 77-81: walk the column names in order;
for each, read `dataset['train'][0][col]` (raising on an empty split or
a missing key) and stop at the first string-valued column. -/
def findStringColumn (s : Split) : List String → Except PyError (Option String)
  | [] => .ok none
  | col :: rest => do
    let r0 ← getRow s 0
    let v ← rowGet r0 col
    if v.isStr then pure (some col) else findStringColumn s rest

/-- Lines 65-88 of the source: auto-detection of the text column.
First candidate name present among `dataset['train'].column_names`
wins; otherwise the first string-valued column in declared order;
otherwise a `DatasetPreparationError` listing the available columns. -/
def detect_text_column (dataset : DatasetDict) : Except PyError String := do
  let trainSplit ← getSplit dataset "train"
  let available_columns := trainSplit.column_names
  let tc0 := List.find? (fun c => available_columns.contains c) possible_columns
  let tc ← match tc0 with
    | some c => pure (some c)
    | none => findStringColumn trainSplit available_columns
  match tc with
  | some c => pure c
  | none =>
    .error (.datasetPreparationError
      ("Could not detect text column. Available columns: "
        ++ pyReprStrList available_columns))

/-- One step of `dataset.map(f, remove_columns=rm)` on the records of a
split: each record is replaced by the fields `f` produced followed by
its original fields outside `rm`; the first exception aborts the map. -/
def mapRows (f : Row → Except PyError Row) (rm : List String) :
    List Row → Except PyError (List Row)
  | [] => .ok []
  | r :: rest => do
    let out ← f r
    let rest' ← mapRows f rm rest
    pure ((out ++ r.filter (fun kv => !(rm.contains kv.1))) :: rest')

/-- Model of `dataset.map(f, remove_columns=rm)` on one split: map the records;
the resulting column names are those of the first mapped record, or,
for an empty split, the original columns outside `rm`. -/
def mapSplit (f : Row → Except PyError Row) (rm : List String)
    (s : Split) : Except PyError Split := do
  let rows ← mapRows f rm s.rows
  let cols := match rows with
    | [] => s.column_names.filter (fun c => !(rm.contains c))
    | r :: _ => r.map Prod.fst
  pure ⟨cols, rows⟩

/-- Model of `dataset.map(...)` over every split of a `DatasetDict`, keeping
split names and order. -/
def mapSplits (f : Row → Except PyError Row) (rm : List String) :
    List (String × Split) → Except PyError (List (String × Split))
  | [] => .ok []
  | (n, s) :: rest => do
    let s' ← mapSplit f rm s
    let rest' ← mapSplits f rm rest
    pure ((n, s') :: rest')

/-- Model of `dataset.map(f, batched=True, num_proc=..., remove_columns=rm)`. -/
def mapDataset (f : Row → Except PyError Row) (rm : List String)
    (d : DatasetDict) : Except PyError DatasetDict := do
  let splits ← mapSplits f rm d.splits
  pure ⟨splits⟩

/-- The repository's `PYTORCH_Dataset` wrapper as `prepare_dataset`
constructs it: the tokenized split plus the mask and pad token ids. -/
structure PYTORCH_Dataset where
  data : Split
  mask_token_id : Option Nat
  pad_token_id : Option Nat

/-- The triple `prepare_dataset` returns on success. -/
structure PrepareOk where
  train : PYTORCH_Dataset
  val : Option PYTORCH_Dataset
  tokenizer : Tokenizer

/-- Lines 104-130 of the source, after the text column is resolved:
compute `remove_columns` from the train split's raw column names, map
`tokenize_function` over every split, and wrap the tokenized train
split and the optional validation split with the tokenizer's mask and
pad token ids. -/
def tokenize_and_wrap (tokenizer : Tokenizer) (dataset : DatasetDict)
    (tc : String) : Except PyError PrepareOk := do
  let trainSplit ← getSplit dataset "train"
  let remove_cols := if trainSplit.column_names.contains tc then [tc] else []
  let td ← mapDataset (tokenize_function tokenizer tc) remove_cols dataset
  let trainTok ← getSplit td "train"
  let train_dataset : PYTORCH_Dataset :=
    ⟨trainTok, tokenizer.mask_token_id, tokenizer.pad_token_id⟩
  let val_dataset : Option PYTORCH_Dataset :=
    match lookupSplit td.splits "validation" with
    | some vs => some ⟨vs, tokenizer.mask_token_id, tokenizer.pad_token_id⟩
    | none => none
  pure ⟨train_dataset, val_dataset, tokenizer⟩

/-- The body of `prepare_dataset` inside the outer `try` (lines 44-131):
load the tokenizer, ensure its special tokens, load the dataset
(wrapping a load failure at its call site), resolve the text column
(auto-detection only when none is supplied), then tokenize every split
and wrap the results. -/
def prepare_dataset_body (tokLoad : Except String Tokenizer)
    (dsLoad : Except String DatasetDict)
    (dataset_name : String) (text_column : Option String) :
    Except PyError PrepareOk := do
  let tok0 ← match tokLoad with
    | .ok t => pure t
    | .error m => .error (.otherError m)
  let tokenizer := ensure_special_tokens tok0
  let dataset ← match dsLoad with
    | .ok d => pure d
    | .error m =>
      .error (.datasetPreparationError
        ("Failed to load dataset " ++ dataset_name ++ ": " ++ m))
  let tc ← match text_column with
    | some c => pure c
    | none => detect_text_column dataset
  tokenize_and_wrap tokenizer dataset tc

/-- Function `prepare_dataset` with its outer boundary (lines 132-134): every
exception `e` escaping the body — `DatasetPreparationError` included —
is caught and re-raised as
`DatasetPreparationError("Dataset preparation failed: " + str(e))`. -/
def prepare_dataset (tokLoad : Except String Tokenizer)
    (dsLoad : Except String DatasetDict)
    (dataset_name : String) (text_column : Option String) :
    Except PyError PrepareOk :=
  match prepare_dataset_body tokLoad dsLoad dataset_name text_column with
  | .ok r => .ok r
  | .error e =>
    .error (.datasetPreparationError ("Dataset preparation failed: " ++ pyStr e))

/-! ### Concrete fixtures used by witnesses and counterexamples -/

/-- A tokenizer with both special tokens present whose encoding call
always succeeds, yielding `input_ids` and `attention_mask` fields. -/
def tokDemo : Tokenizer :=
  ⟨some "[MASK]", some "[PAD]", some 1, some 2, 10,
    fun _ => .ok [("input_ids", .other), ("attention_mask", .other)]⟩

/-- A tokenizer missing both the mask and the pad token. -/
def tokBare : Tokenizer :=
  ⟨none, none, none, none, 10, fun _ => .ok []⟩

/-- A train split with a `text` column and a `label` column. -/
def trainDemo : Split :=
  ⟨["text", "label"], [[("text", .str "hi"), ("label", .int 0)]]⟩

/-- A dataset with a train and a validation split. -/
def dsDemo : DatasetDict :=
  ⟨[("train", trainDemo),
    ("validation", ⟨["text", "label"], [[("text", .str "yo"), ("label", .int 1)]]⟩)]⟩

/-- A dataset whose train split has no candidate-list column: an
integer column `bar` first, then a string column `foo`. -/
def dsFooBar : DatasetDict :=
  ⟨[("train", ⟨["bar", "foo"], [[("bar", .int 3), ("foo", .str "hello")]]⟩)]⟩

/-- A dataset whose train split has no string-valued column. -/
def dsIntOnly : DatasetDict :=
  ⟨[("train", ⟨["bar"], [[("bar", .int 3)]]⟩)]⟩

/-- A dataset with no `train` split. -/
def dsNoTrain : DatasetDict :=
  ⟨[("test", ⟨["text"], [[("text", .str "hi")]]⟩)]⟩

/-- Split `trainDemo` after mapping `tokenize_function tokDemo "text"` with
the text column removed. -/
def trainDemoMapped : Split :=
  ⟨["input_ids", "attention_mask", "label"],
    [[("input_ids", .other), ("attention_mask", .other), ("label", .int 0)]]⟩

/-- The value `prepare_dataset (.ok tokDemo) (.ok dsDemo) "D" none`
returns on success. -/
def resDemo : PrepareOk :=
  ⟨⟨trainDemoMapped, some 1, some 2⟩,
    some ⟨⟨["input_ids", "attention_mask", "label"],
      [[("input_ids", .other), ("attention_mask", .other), ("label", .int 1)]]⟩,
      some 1, some 2⟩,
    tokDemo⟩

/-! ### Helper lemmas -/

/-- Lemma: `List.find?` returns the element at the first index where the
predicate holds. -/
theorem find_first_true {α : Type} (p : α → Bool) (l : List α) :
    ∀ (i : Nat) (hi : i < l.length), p (l.get ⟨i, hi⟩) = true →
    (∀ j (hj : j < i), p (l.get ⟨j, hj.trans hi⟩) = false) →
    List.find? p l = some (l.get ⟨i, hi⟩) := by
  induction l with
  | nil => intro i hi _ _; exact absurd hi (by simp)
  | cons a t ih =>
    intro i hi hp hfirst
    cases i with
    | zero =>
      exact List.find?_cons_of_pos _ hp
    | succ n =>
      have ha : p a = false := by
        have h0 := hfirst 0 (Nat.succ_pos n)
        simpa using h0
      have hn : n < t.length := by simpa using hi
      have hp' : p (t.get ⟨n, hn⟩) = true := by simpa using hp
      have hfirst' : ∀ j (hj : j < n), p (t.get ⟨j, hj.trans hn⟩) = false := by
        intro j hj
        have := hfirst (j + 1) (by omega)
        simpa using this
      rw [List.find?_cons_of_neg _ (by simp [ha])]
      exact ih n hn hp' hfirst'

/-- The fallback loop stops at the first string-valued column. -/
theorem findStringColumn_first (s : Split) (r0 : Row)
    (hrow : getRow s 0 = .ok r0) (cols : List String) :
    ∀ (i : Nat) (hi : i < cols.length),
    (∃ v, rowGet r0 (cols.get ⟨i, hi⟩) = .ok v ∧ v.isStr = true) →
    (∀ j (hj : j < i), ∃ v, rowGet r0 (cols.get ⟨j, hj.trans hi⟩) = .ok v ∧ v.isStr = false) →
    findStringColumn s cols = .ok (some (cols.get ⟨i, hi⟩)) := by
  induction cols with
  | nil => intro i hi _ _; exact absurd hi (by simp)
  | cons a t ih =>
    intro i hi hstr hpre
    cases i with
    | zero =>
      obtain ⟨v, hv, hvs⟩ := hstr
      simp only [List.get] at hv ⊢
      simp [findStringColumn, hrow, hv, hvs, Bind.bind, Except.bind, Pure.pure, Except.pure]
    | succ n =>
      obtain ⟨v, hv, hvs⟩ := hpre 0 (Nat.succ_pos n)
      simp only [List.get] at hv
      have hn : n < t.length := by simpa using hi
      have hstr' : ∃ v, rowGet r0 (t.get ⟨n, hn⟩) = .ok v ∧ v.isStr = true := by
        simpa using hstr
      have hpre' : ∀ j (hj : j < n), ∃ v, rowGet r0 (t.get ⟨j, hj.trans hn⟩) = .ok v ∧ v.isStr = false := by
        intro j hj
        have := hpre (j + 1) (by omega)
        simpa using this
      simp only [findStringColumn, hrow, hv, hvs, Bind.bind, Except.bind]
      simpa using ih n hn hstr' hpre'

/-- The fallback loop finds nothing when no column is string-valued. -/
theorem findStringColumn_none (s : Split) (cols : List String)
    (h : ∀ c ∈ cols, ∃ r0 v, getRow s 0 = .ok r0 ∧ rowGet r0 c = .ok v ∧ v.isStr = false) :
    findStringColumn s cols = .ok none := by
  induction cols with
  | nil => rfl
  | cons a t ih =>
    obtain ⟨r0, v, hr, hv, hs⟩ := h a (by simp)
    simp only [findStringColumn, hr, hv, hs, Bind.bind, Except.bind]
    simpa using ih (fun c hc => h c (by simp [hc]))

/-- A successful `mapSplits` keeps the split names and their order. -/
theorem mapSplits_keys (f : Row → Except PyError Row) (rm : List String) :
    ∀ (l l' : List (String × Split)), mapSplits f rm l = .ok l' →
    l'.map Prod.fst = l.map Prod.fst := by
  intro l
  induction l with
  | nil =>
    intro l' h
    simp only [mapSplits] at h
    cases h
    rfl
  | cons a t ih =>
    intro l' h
    obtain ⟨n, s⟩ := a
    simp only [mapSplits, Bind.bind, Except.bind] at h
    cases hs : mapSplit f rm s with
    | error e => rw [hs] at h; cases h
    | ok s2 =>
      rw [hs] at h
      cases ht : mapSplits f rm t with
      | error e => rw [ht] at h; cases h
      | ok t2 =>
        rw [ht] at h
        cases h
        simp [ih t2 ht]

/-- Presence of a split name depends only on the list of names. -/
theorem lookupSplit_isSome_of_keys_eq :
    ∀ (l l' : List (String × Split)), l'.map Prod.fst = l.map Prod.fst →
    ∀ n, (lookupSplit l' n).isSome = (lookupSplit l n).isSome := by
  intro l
  induction l with
  | nil =>
    intro l' h n
    cases l' with
    | nil => rfl
    | cons b t' => simp at h
  | cons a t ih =>
    intro l' h n
    cases l' with
    | nil => simp at h
    | cons b t' =>
      simp only [List.map, List.cons.injEq] at h
      obtain ⟨h1, h2⟩ := h
      simp only [lookupSplit, List.find?, h1]
      cases hb : (a.1 == n) with
      | true => simp
      | false =>
        simpa [lookupSplit] using ih t' h2 n

/-! ### Claim theorems -/

/-- C1 (counterexample to the claim as stated): an inner
`DatasetPreparationError` — here the dataset-load wrap, whose message is
`"Failed to load dataset D: boom"` — does not propagate through the
outer boundary unchanged: the caller receives a re-wrapped error whose
message carries the outer prefix a second time. -/
theorem C1_counterexample :
    prepare_dataset (.ok tokDemo) (.error "boom") "D" none =
      .error (.datasetPreparationError
        "Dataset preparation failed: Failed to load dataset D: boom")
    ∧ "Dataset preparation failed: Failed to load dataset D: boom" ≠
        "Failed to load dataset D: boom" :=
  ⟨rfl, by decide⟩

/-- C1 (amended): every failure of `prepare_dataset` reaches the caller
as a `DatasetPreparationError` whose message is
`"Dataset preparation failed: "` followed by the text of the exception
escaping the body; this applies to every exception, an inner
`DatasetPreparationError` included, so an already-wrapped failure such
as the dataset-load wrap is wrapped a second time by the outer boundary
rather than propagating unchanged. -/
theorem C1_outer_boundary_rewraps_every_failure
    (tokLoad : Except String Tokenizer) (dsLoad : Except String DatasetDict)
    (nm : String) (tc : Option String) :
    (∀ e, prepare_dataset tokLoad dsLoad nm tc = .error e →
      ∃ m, e = .datasetPreparationError ("Dataset preparation failed: " ++ m)
        ∧ ∃ e0, prepare_dataset_body tokLoad dsLoad nm tc = .error e0 ∧ m = pyStr e0)
    ∧ (∀ t m, tokLoad = .ok t → dsLoad = .error m →
      prepare_dataset tokLoad dsLoad nm tc =
        .error (.datasetPreparationError
          ("Dataset preparation failed: " ++ ("Failed to load dataset " ++ nm ++ ": " ++ m)))) := by
  constructor
  · intro e he
    unfold prepare_dataset at he
    cases hb : prepare_dataset_body tokLoad dsLoad nm tc with
    | ok r => rw [hb] at he; cases he
    | error e0 =>
      rw [hb] at he
      cases he
      exact ⟨pyStr e0, rfl, e0, rfl, rfl⟩
  · intro t m ht hm
    subst ht; subst hm
    simp [prepare_dataset, prepare_dataset_body, Bind.bind, Except.bind,
      Pure.pure, Except.pure, pyStr]

/-- Closed instance of the amended C1 theorem at a failing load. -/
theorem C1_outer_boundary_rewraps_witness :
    prepare_dataset (.ok tokDemo) (.error "boom") "D" none =
      .error (.datasetPreparationError
        ("Dataset preparation failed: " ++ ("Failed to load dataset " ++ "D" ++ ": " ++ "boom"))) :=
  (C1_outer_boundary_rewraps_every_failure (.ok tokDemo) (.error "boom") "D" none).2
    tokDemo "boom" rfl rfl

/-- C7: a failing raw dataset load is wrapped at its call site into a
`DatasetPreparationError`, and the error `prepare_dataset` raises for
it carries a message containing both the dataset identifier and the
original failure text. -/
theorem C7_load_failure_message_names_dataset_and_cause
    (tok : Tokenizer) (m nm : String) (tc : Option String) :
    ∃ msg, prepare_dataset (.ok tok) (.error m) nm tc =
        .error (.datasetPreparationError msg)
      ∧ (∃ a b, msg = a ++ nm ++ b)
      ∧ (∃ c, msg = c ++ m) := by
  refine ⟨"Dataset preparation failed: " ++ ("Failed to load dataset " ++ nm ++ ": " ++ m),
    ?_, ?_, ?_⟩
  · simp [prepare_dataset, prepare_dataset_body, Bind.bind, Except.bind,
      Pure.pure, Except.pure, pyStr]
  · refine ⟨"Dataset preparation failed: " ++ "Failed to load dataset ", ": " ++ m, ?_⟩
    conv_rhs => rw [String.append_assoc "Dataset preparation failed: " "Failed to load dataset " nm,
      String.append_assoc "Dataset preparation failed: "
        ("Failed to load dataset " ++ nm) (": " ++ m)]
    conv_lhs => rw [String.append_assoc ("Failed to load dataset " ++ nm) ": " m]
  · refine ⟨"Dataset preparation failed: " ++ ("Failed to load dataset " ++ nm ++ ": "), ?_⟩
    simp [String.append_assoc]

/-- C10: a dataset that loads but has no `train` split makes
`prepare_dataset` raise a `DatasetPreparationError` on both the
auto-detection path and the explicit-column path; the `KeyError` from
indexing the missing split is normalized by the outer boundary. -/
theorem C10_missing_train_split_raises (tok : Tokenizer) (d : DatasetDict)
    (nm : String) (tc : Option String)
    (hno : lookupSplit d.splits "train" = none) :
    prepare_dataset (.ok tok) (.ok d) nm tc =
      .error (.datasetPreparationError "Dataset preparation failed: 'train'") := by
  cases tc with
  | none =>
    simp [prepare_dataset, prepare_dataset_body, detect_text_column, getSplit, hno,
      Bind.bind, Except.bind, Pure.pure, Except.pure, pyStr]
  | some c =>
    simp [prepare_dataset, prepare_dataset_body, tokenize_and_wrap, getSplit, hno,
      Bind.bind, Except.bind, Pure.pure, Except.pure, pyStr]

/-- Closed instance of the C10 theorem on a dataset with only a `test`
split. -/
theorem C10_missing_train_split_witness :
    prepare_dataset (.ok tokDemo) (.ok dsNoTrain) "D" none =
      .error (.datasetPreparationError "Dataset preparation failed: 'train'") :=
  C10_missing_train_split_raises tokDemo dsNoTrain "D" none rfl

/-- C6: after special-token provisioning the tokenizer's mask and pad
token ids are non-null; a missing mask token is registered as `[MASK]`
and a missing pad token as `[PAD]`, while a tokenizer already defining
both tokens is left entirely unchanged. -/
theorem C6_special_token_provisioning (t : Tokenizer)
    (hm : t.mask_token.isSome = true → t.mask_token_id.isSome = true)
    (hp : t.pad_token.isSome = true → t.pad_token_id.isSome = true) :
    ((ensure_special_tokens t).mask_token_id.isSome = true
      ∧ (ensure_special_tokens t).pad_token_id.isSome = true)
    ∧ (t.mask_token = none → (ensure_special_tokens t).mask_token = some "[MASK]")
    ∧ (t.pad_token = none → (ensure_special_tokens t).pad_token = some "[PAD]")
    ∧ (t.mask_token.isSome = true → t.pad_token.isSome = true →
        ensure_special_tokens t = t) := by
  cases hmt : t.mask_token with
  | none =>
    cases hpt : t.pad_token with
    | none =>
      simp [ensure_special_tokens, add_mask_token, add_pad_token, hmt, hpt]
    | some pt =>
      simp [ensure_special_tokens, add_mask_token, add_pad_token, hmt, hpt,
        hp (by simp [hpt])]
  | some mt =>
    cases hpt : t.pad_token with
    | none =>
      simp [ensure_special_tokens, add_mask_token, add_pad_token, hmt, hpt,
        hm (by simp [hmt])]
    | some pt =>
      simp [ensure_special_tokens, add_mask_token, add_pad_token, hmt, hpt,
        hm (by simp [hmt]), hp (by simp [hpt])]

/-- Closed instance of the C6 theorem on a tokenizer missing both
special tokens. -/
theorem C6_special_token_provisioning_witness :
    ((ensure_special_tokens tokBare).mask_token_id.isSome = true
      ∧ (ensure_special_tokens tokBare).pad_token_id.isSome = true)
    ∧ (tokBare.mask_token = none → (ensure_special_tokens tokBare).mask_token = some "[MASK]")
    ∧ (tokBare.pad_token = none → (ensure_special_tokens tokBare).pad_token = some "[PAD]")
    ∧ (tokBare.mask_token.isSome = true → tokBare.pad_token.isSome = true →
        ensure_special_tokens tokBare = tokBare) :=
  C6_special_token_provisioning tokBare (by simp [tokBare]) (by simp [tokBare])

/-- C2: with no explicit text column, detection scans the fixed ordered
candidate list against the train split's column names and selects the
first candidate present; in particular, a train split containing a
column named `text` always makes detection select `text`, whatever
other candidate names occur. -/
theorem C2_candidate_order_decides (d : DatasetDict) (s : Split)
    (h : lookupSplit d.splits "train" = some s) :
    (∀ (i : Nat) (hi : i < possible_columns.length),
      s.column_names.contains (possible_columns.get ⟨i, hi⟩) = true →
      (∀ j (hj : j < i),
        s.column_names.contains (possible_columns.get ⟨j, hj.trans hi⟩) = false) →
      detect_text_column d = .ok (possible_columns.get ⟨i, hi⟩))
    ∧ (s.column_names.contains "text" = true → detect_text_column d = .ok "text") := by
  have main : ∀ (i : Nat) (hi : i < possible_columns.length),
      s.column_names.contains (possible_columns.get ⟨i, hi⟩) = true →
      (∀ j (hj : j < i),
        s.column_names.contains (possible_columns.get ⟨j, hj.trans hi⟩) = false) →
      detect_text_column d = .ok (possible_columns.get ⟨i, hi⟩) := by
    intro i hi hp hfirst
    have hfind := find_first_true (fun c => s.column_names.contains c)
      possible_columns i hi hp hfirst
    simp only [detect_text_column, getSplit, h, Bind.bind, Except.bind]
    rw [hfind]
    rfl
  refine ⟨main, ?_⟩
  intro htext
  have h0 : (0 : Nat) < possible_columns.length := by simp [possible_columns]
  have hres := main 0 h0 (by simpa [possible_columns] using htext)
    (fun j hj => absurd hj (Nat.not_lt_zero j))
  simpa [possible_columns] using hres

/-- Closed instance of the C2 theorem: a train split whose columns are
`text` and `sentence` (both candidates) resolves to `text`. -/
theorem C2_candidate_order_witness :
    detect_text_column ⟨[("train", ⟨["sentence", "text"], []⟩)]⟩ = .ok "text" :=
  (C2_candidate_order_decides ⟨[("train", ⟨["sentence", "text"], []⟩)]⟩
    ⟨["sentence", "text"], []⟩ rfl).2 (by decide)

/-- C3: when no candidate-list name occurs among the train split's
columns, detection scans all column names in declared order and selects
the first one whose value in the first train record is a string. -/
theorem C3_fallback_first_string_column (d : DatasetDict) (s : Split) (r0 : Row)
    (h : lookupSplit d.splits "train" = some s)
    (hrow : getRow s 0 = .ok r0)
    (hnc : ∀ c ∈ possible_columns, s.column_names.contains c = false)
    (i : Nat) (hi : i < s.column_names.length)
    (hstr : ∃ v, rowGet r0 (s.column_names.get ⟨i, hi⟩) = .ok v ∧ v.isStr = true)
    (hpre : ∀ j (hj : j < i),
      ∃ v, rowGet r0 (s.column_names.get ⟨j, hj.trans hi⟩) = .ok v ∧ v.isStr = false) :
    detect_text_column d = .ok (s.column_names.get ⟨i, hi⟩) := by
  have hfind : List.find? (fun c => s.column_names.contains c) possible_columns = none := by
    rw [List.find?_eq_none]
    intro a ha
    simpa using hnc a ha
  have hfsc := findStringColumn_first s r0 hrow s.column_names i hi hstr hpre
  simp only [detect_text_column, getSplit, h, Bind.bind, Except.bind]
  rw [hfind, hfsc]
  rfl

/-- Closed instance of the C3 theorem: no candidate column, integer
column `bar` first and string column `foo` second; detection selects
`foo`. -/
theorem C3_fallback_witness : detect_text_column dsFooBar = .ok "foo" :=
  C3_fallback_first_string_column dsFooBar
    ⟨["bar", "foo"], [[("bar", .int 3), ("foo", .str "hello")]]⟩
    [("bar", .int 3), ("foo", .str "hello")]
    rfl rfl (by decide) 1 (by decide)
    ⟨.str "hello", rfl, rfl⟩
    (by
      intro j hj
      interval_cases j
      exact ⟨.int 3, rfl, rfl⟩)

/-- C4: with no explicit text column, no candidate-name hit and no
string-valued column in the first train record, `prepare_dataset`
raises a `DatasetPreparationError` whose message carries the full list
of the train split's available column names. -/
theorem C4_no_string_column_fails_closed (tok : Tokenizer) (d : DatasetDict)
    (s : Split) (nm : String)
    (h : lookupSplit d.splits "train" = some s)
    (hnc : ∀ c ∈ possible_columns, s.column_names.contains c = false)
    (hns : ∀ c ∈ s.column_names,
      ∃ r0 v, getRow s 0 = .ok r0 ∧ rowGet r0 c = .ok v ∧ v.isStr = false) :
    ∃ a b, prepare_dataset (.ok tok) (.ok d) nm none =
        .error (.datasetPreparationError (a ++ (b ++ pyReprStrList s.column_names)))
      ∧ a = "Dataset preparation failed: "
      ∧ b = "Could not detect text column. Available columns: " := by
  have hfind : List.find? (fun c => s.column_names.contains c) possible_columns = none := by
    rw [List.find?_eq_none]
    intro a ha
    simpa using hnc a ha
  have hfsc := findStringColumn_none s s.column_names hns
  have hdet : detect_text_column d = .error (.datasetPreparationError
      ("Could not detect text column. Available columns: "
        ++ pyReprStrList s.column_names)) := by
    simp only [detect_text_column, getSplit, h, Bind.bind, Except.bind]
    rw [hfind, hfsc]
  refine ⟨"Dataset preparation failed: ",
    "Could not detect text column. Available columns: ", ?_, rfl, rfl⟩
  simp [prepare_dataset, prepare_dataset_body, hdet, Bind.bind, Except.bind,
    Pure.pure, Except.pure, pyStr]

/-- Closed instance of the C4 theorem on a train split whose only
column holds integers. -/
theorem C4_no_string_column_witness :
    ∃ a b, prepare_dataset (.ok tokDemo) (.ok dsIntOnly) "D" none =
        .error (.datasetPreparationError (a ++ (b ++ pyReprStrList ["bar"])))
      ∧ a = "Dataset preparation failed: "
      ∧ b = "Could not detect text column. Available columns: " :=
  C4_no_string_column_fails_closed tokDemo dsIntOnly ⟨["bar"], [[("bar", .int 3)]]⟩ "D"
    rfl (by decide)
    (by
      intro c hc
      simp at hc
      subst hc
      exact ⟨[("bar", .int 3)], .int 3, rfl, rfl, rfl⟩)

/-- C5: an explicitly supplied `text_column` is used unconditionally —
detection is skipped and the name is not validated against the
available columns; when the supplied name is absent from the dataset
the failure surfaces as a tokenization failure (the `KeyError` text
wrapped as `"Tokenization failed: ..."` at the tokenize step), not as
a detection failure. -/
theorem C5_explicit_column_used_unconditionally
    (tok : Tokenizer) (nm c : String) (s : Split) (r : Row) (rest : List Row)
    (hrows : s.rows = r :: rest)
    (habs : List.find? (fun kv => kv.1 == c) r = none)
    (hcol : s.column_names.contains c = false) :
    prepare_dataset (.ok tok) (.ok ⟨[("train", s)]⟩) nm (some c) =
      .error (.datasetPreparationError
        ("Dataset preparation failed: " ++ ("Tokenization failed: " ++ ("'" ++ c ++ "'")))) := by
  have hrowget : rowGet r c = .error (.otherError ("'" ++ c ++ "'")) := by
    simp only [rowGet, habs]
  have hf : tokenize_function (ensure_special_tokens tok) c r =
      .error (.datasetPreparationError ("Tokenization failed: " ++ ("'" ++ c ++ "'"))) := by
    simp only [tokenize_function, hrowget, pyStr]
  have hget : getSplit ⟨[("train", s)]⟩ "train" = .ok s := by
    simp [getSplit, lookupSplit]
  have hmr : mapRows (tokenize_function (ensure_special_tokens tok) c) [] s.rows =
      .error (.datasetPreparationError ("Tokenization failed: " ++ ("'" ++ c ++ "'"))) := by
    rw [hrows]
    simp only [mapRows, hf, Bind.bind, Except.bind]
  simp only [prepare_dataset, prepare_dataset_body, tokenize_and_wrap, hget,
    Bind.bind, Except.bind, Pure.pure, Except.pure]
  rw [hcol]
  simp only [mapDataset, mapSplits, mapSplit, Bind.bind, Except.bind,
    Pure.pure, Except.pure, Bool.false_eq_true, if_false, hmr, pyStr]

/-- Closed instance of the C5 theorem: explicit column `zzz` absent
from a dataset whose train split has columns `text` and `label`. -/
theorem C5_explicit_column_witness :
    prepare_dataset (.ok tokDemo) (.ok ⟨[("train", trainDemo)]⟩) "D" (some "zzz") =
      .error (.datasetPreparationError
        ("Dataset preparation failed: " ++ ("Tokenization failed: " ++ ("'" ++ "zzz" ++ "'")))) :=
  C5_explicit_column_used_unconditionally tokDemo "D" "zzz" trainDemo
    [("text", .str "hi"), ("label", .int 0)] [] rfl (by decide) (by decide)

/-- A successful `mapSplit` with no removal keeps every original
column in the mapped split's column names. -/
theorem mapSplit_no_removal_keeps_columns (f : Row → Except PyError Row)
    (s s2 : Split)
    (hwf : ∀ r ∈ s.rows, r.map Prod.fst = s.column_names)
    (hmap : mapSplit f [] s = .ok s2) :
    ∀ c ∈ s.column_names, c ∈ s2.column_names := by
  simp only [mapSplit, Bind.bind, Except.bind] at hmap
  cases hmr : mapRows f [] s.rows with
  | error e => rw [hmr] at hmap; cases hmap
  | ok rows2 =>
    rw [hmr] at hmap
    cases hmap
    intro c hc
    cases hr : s.rows with
    | nil =>
      rw [hr] at hmr
      simp only [mapRows] at hmr
      cases hmr
      simpa using hc
    | cons r rest =>
      rw [hr] at hmr
      simp only [mapRows, Bind.bind, Except.bind] at hmr
      cases hf : f r with
      | error e => rw [hf] at hmr; cases hmr
      | ok out =>
        rw [hf] at hmr
        cases hmrest : mapRows f [] rest with
        | error e => rw [hmrest] at hmr; cases hmr
        | ok rest2 =>
          rw [hmrest] at hmr
          simp only [Pure.pure, Except.pure, Except.ok.injEq] at hmr
          cases hmr
          have hkeys := hwf r (by rw [hr]; exact List.mem_cons_self r rest)
          simp only [List.map_append]
          rw [List.mem_append]
          right
          have hfil : List.filter (fun kv => !(List.contains ([] : List String) kv.1)) r = r := by
            simp
          rw [hfil, hkeys]
          exact hc

/-- A successful `mapSplit` removing exactly the text column keeps
every other original column and drops the text column itself, given
that the mapping function's output fields never use its name. -/
theorem mapSplit_removal_drops_only_text (f : Row → Except PyError Row)
    (tc : String) (s s2 : Split)
    (hwf : ∀ r ∈ s.rows, r.map Prod.fst = s.column_names)
    (hout : ∀ r out, f r = .ok out → tc ∉ out.map Prod.fst)
    (hmap : mapSplit f [tc] s = .ok s2) :
    (∀ c ∈ s.column_names, c ≠ tc → c ∈ s2.column_names)
    ∧ tc ∉ s2.column_names := by
  simp only [mapSplit, Bind.bind, Except.bind] at hmap
  cases hmr : mapRows f [tc] s.rows with
  | error e => rw [hmr] at hmap; cases hmap
  | ok rows2 =>
    rw [hmr] at hmap
    cases hmap
    cases hr : s.rows with
    | nil =>
      rw [hr] at hmr
      simp only [mapRows] at hmr
      cases hmr
      constructor
      · intro c hc hne
        simp [List.mem_filter, hc, hne]
      · intro hmem
        simp [List.mem_filter] at hmem
    | cons r rest =>
      rw [hr] at hmr
      simp only [mapRows, Bind.bind, Except.bind] at hmr
      cases hf : f r with
      | error e => rw [hf] at hmr; cases hmr
      | ok out =>
        rw [hf] at hmr
        cases hmrest : mapRows f [tc] rest with
        | error e => rw [hmrest] at hmr; cases hmr
        | ok rest2 =>
          rw [hmrest] at hmr
          simp only [Pure.pure, Except.pure, Except.ok.injEq] at hmr
          cases hmr
          have hkeys := hwf r (by rw [hr]; exact List.mem_cons_self r rest)
          constructor
          · intro c hc hne
            rw [← hkeys] at hc
            obtain ⟨kv, hkv, hkvc⟩ := List.mem_map.mp hc
            simp only [List.map_append]
            rw [List.mem_append]
            right
            rw [List.mem_map]
            refine ⟨kv, ?_, hkvc⟩
            rw [List.mem_filter]
            refine ⟨hkv, ?_⟩
            simp [hkvc, hne]
          · intro hmem
            simp only [List.map_append, List.mem_append] at hmem
            cases hmem with
            | inl hl => exact hout r out hf hl
            | inr hrr =>
              obtain ⟨kv, hkv, hkvc⟩ := List.mem_map.mp hrr
              rw [List.mem_filter] at hkv
              have := hkv.2
              simp [hkvc] at this

/-- C9: with `remove_columns` computed as in the source from the train
split's raw column names, the map drops the resolved text column
exactly in the case where it would be present in the mapped output
(the tokenizer's output fields never shadow it), and no column other
than the resolved text column is removed: every other original column
survives into the mapped split. -/
theorem C9_only_text_column_removed (f : Row → Except PyError Row)
    (tc : String) (strain s s2 : Split)
    (hwf : ∀ r ∈ s.rows, r.map Prod.fst = s.column_names)
    (hout : ∀ r out, f r = .ok out → tc ∉ out.map Prod.fst)
    (hmap : mapSplit f (if strain.column_names.contains tc then [tc] else []) s = .ok s2) :
    (∀ c ∈ s.column_names, c ≠ tc → c ∈ s2.column_names)
    ∧ (strain.column_names.contains tc = false → ∀ c ∈ s.column_names, c ∈ s2.column_names)
    ∧ (strain.column_names.contains tc = true → s = strain → tc ∉ s2.column_names) := by
  cases hg : strain.column_names.contains tc with
  | false =>
    rw [hg] at hmap
    simp only [Bool.false_eq_true, if_false] at hmap
    have hall := mapSplit_no_removal_keeps_columns f s s2 hwf hmap
    exact ⟨fun c hc _ => hall c hc, fun _ => hall, fun hco => absurd hco (by simp)⟩
  | true =>
    rw [hg] at hmap
    simp only [if_true] at hmap
    have hres := mapSplit_removal_drops_only_text f tc s s2 hwf hout hmap
    exact ⟨hres.1, fun hco => absurd hco (by simp), fun _ _ => hres.2⟩

/-- Closed instance of the C9 theorem: mapping `trainDemo` with
`tokenize_function tokDemo "text"` drops `text`, keeps `label` and the
tokenizer output fields. -/
theorem C9_only_text_column_witness :
    (∀ c ∈ trainDemo.column_names, c ≠ "text" → c ∈ trainDemoMapped.column_names)
    ∧ (trainDemo.column_names.contains "text" = false →
        ∀ c ∈ trainDemo.column_names, c ∈ trainDemoMapped.column_names)
    ∧ (trainDemo.column_names.contains "text" = true → trainDemo = trainDemo →
        "text" ∉ trainDemoMapped.column_names) :=
  C9_only_text_column_removed (tokenize_function tokDemo "text") "text"
    trainDemo trainDemo trainDemoMapped (by decide)
    (by
      intro r out h
      simp only [tokenize_function] at h
      cases hg : rowGet r "text" with
      | error e => rw [hg] at h; cases h
      | ok v =>
        rw [hg] at h
        have he : tokDemo.encode v =
            .ok [("input_ids", Value.other), ("attention_mask", Value.other)] := rfl
        simp only [he] at h
        cases h
        decide)
    rfl

/-- Inversion of a successful `tokenize_and_wrap`: the shape of the
returned triple in terms of the tokenized dataset. -/
theorem tokenize_and_wrap_ok_shape (tk : Tokenizer) (d : DatasetDict) (c : String)
    (res : PrepareOk) (h : tokenize_and_wrap tk d c = .ok res) :
    ∃ s0 td ts, getSplit d "train" = .ok s0
      ∧ mapDataset (tokenize_function tk c)
          (if s0.column_names.contains c then [c] else []) d = .ok td
      ∧ getSplit td "train" = .ok ts
      ∧ res.tokenizer = tk
      ∧ res.train = ⟨ts, tk.mask_token_id, tk.pad_token_id⟩
      ∧ ((lookupSplit td.splits "validation" = none ∧ res.val = none)
        ∨ ∃ vs, lookupSplit td.splits "validation" = some vs
            ∧ res.val = some ⟨vs, tk.mask_token_id, tk.pad_token_id⟩) := by
  simp only [tokenize_and_wrap, Bind.bind, Except.bind] at h
  split at h
  · cases h
  · next s0 hs0 =>
    split at h
    · cases h
    · next td hmd =>
      split at h
      · cases h
      · next ts hts =>
        simp only [Pure.pure, Except.pure, Except.ok.injEq] at h
        refine ⟨s0, td, ts, hs0, hmd, hts, ?_, ?_, ?_⟩
        · rw [← h]
        · rw [← h]
        · cases hv : lookupSplit td.splits "validation" with
          | none =>
            rw [hv] at h
            exact Or.inl ⟨rfl, by rw [← h]⟩
          | some vs =>
            rw [hv] at h
            exact Or.inr ⟨vs, rfl, by rw [← h]⟩

/-- C8: whenever `prepare_dataset` succeeds, its second component is
present exactly when the loaded dataset has a `validation` split
(the map keeps split names, so this is equally a statement about the
tokenized dataset), and a present validation wrapper carries the same
mask-token and pad-token ids as the train wrapper; with no
`validation` split the second component is the absence marker `none`,
never an empty wrapper. -/
theorem C8_validation_split_wrapping (tokLoad : Except String Tokenizer)
    (d : DatasetDict) (nm : String) (tc : Option String) (res : PrepareOk)
    (h : prepare_dataset tokLoad (.ok d) nm tc = .ok res) :
    (res.val.isSome = (lookupSplit d.splits "validation").isSome)
    ∧ ∀ v, res.val = some v →
        v.mask_token_id = res.train.mask_token_id
        ∧ v.pad_token_id = res.train.pad_token_id := by
  unfold prepare_dataset at h
  cases hb : prepare_dataset_body tokLoad (.ok d) nm tc with
  | error e => rw [hb] at h; cases h
  | ok r =>
    rw [hb] at h
    cases h
    cases tokLoad with
    | error m => simp [prepare_dataset_body, Bind.bind, Except.bind] at hb
    | ok tk =>
      have key : ∀ c (x : PrepareOk),
          tokenize_and_wrap (ensure_special_tokens tk) d c = .ok x →
          (x.val.isSome = (lookupSplit d.splits "validation").isSome)
          ∧ ∀ v, x.val = some v →
              v.mask_token_id = x.train.mask_token_id
              ∧ v.pad_token_id = x.train.pad_token_id := by
        intro c x hc
        obtain ⟨s0, td, ts, hs0, hmd, hts, htok, htrain, hval⟩ :=
          tokenize_and_wrap_ok_shape (ensure_special_tokens tk) d c x hc
        have hsome : (lookupSplit td.splits "validation").isSome
            = (lookupSplit d.splits "validation").isSome := by
          simp only [mapDataset, Bind.bind, Except.bind] at hmd
          split at hmd
          · cases hmd
          · next sp2 hms =>
            simp only [Pure.pure, Except.pure, Except.ok.injEq] at hmd
            have hk := mapSplits_keys _ _ d.splits sp2 hms
            rw [← hmd]
            exact lookupSplit_isSome_of_keys_eq d.splits sp2 hk "validation"
        rcases hval with ⟨hnone, hvn⟩ | ⟨vs, hsome2, hvs⟩
        · constructor
          · rw [hvn, ← hsome, hnone]
            rfl
          · intro v hv
            rw [hvn] at hv
            cases hv
        · constructor
          · rw [hvs, ← hsome, hsome2]
            rfl
          · intro v hv
            rw [hvs] at hv
            cases hv
            rw [htrain]
            exact ⟨rfl, rfl⟩
      cases tc with
      | some c =>
        simp only [prepare_dataset_body, Bind.bind, Except.bind,
          Pure.pure, Except.pure] at hb
        exact key c _ hb
      | none =>
        simp only [prepare_dataset_body, Bind.bind, Except.bind,
          Pure.pure, Except.pure] at hb
        cases hdt : detect_text_column d with
        | error e => simp [hdt] at hb
        | ok c =>
          simp only [hdt] at hb
          exact key c _ hb

/-- Closed instance of the C8 theorem on `dsDemo`, which has both a
train and a validation split. -/
theorem C8_validation_split_witness :
    (resDemo.val.isSome = (lookupSplit dsDemo.splits "validation").isSome)
    ∧ ∀ v, resDemo.val = some v →
        v.mask_token_id = resDemo.train.mask_token_id
        ∧ v.pad_token_id = resDemo.train.pad_token_id :=
  C8_validation_split_wrapping (.ok tokDemo) dsDemo "D" none resDemo rfl
